import Mathlib

/-!
Verification development for the ChemPathDemo scoring pipeline.

The Python sources are shallowly embedded: float arithmetic is modelled
by exact rational arithmetic (`ℚ`), dictionaries by `Option`-valued
lookup functions on `String` keys, and in-place mutation of dataclass
instances by explicit record updates.  The pseudo-random draws performed
by the sources (`np.random.uniform`, `np.random.normal` after
`np.random.seed(hash(s) % N)`) are modelled as explicit numeric inputs,
constrained by the hard ranges of the distributions where available
(a uniform draw over `[0.7, 1.3]` is an input `u` with `0.7 ≤ u ≤ 1.3`;
normal draws are unconstrained inputs).
-/

namespace ChemPath

/-! ### CPython salted string hashing

`_simulate_molecular_mechanics` and `_calculate_molecular_descriptors`
(classical_binding_simulator.py) seed numpy with `hash(molecule_smiles) % N`.
CPython's `hash` on `str` is pysiphash (SipHash-1-3 since CPython 3.11,
`Python/pyhash.c`) keyed by the per-process hash secret, which is drawn at
interpreter startup unless `PYTHONHASHSEED` is fixed.  We embed that keyed
hash exactly, with the two 64-bit key halves `k0, k1` made explicit, to be
able to evaluate the seed derivation under two different process secrets. -/

/-- Reduce a natural number to 64 bits, as C `uint64_t` arithmetic does. -/
def mask64 (n : Nat) : Nat := n % 2 ^ 64

/-- 64-bit left rotation (`ROTATE` in `Python/pyhash.c`). -/
def rotl64 (x n : Nat) : Nat := mask64 (x <<< n) ||| (x >>> (64 - n))

/-- `HALF_ROUND(a,b,c,d,s,t)` from `Python/pyhash.c`:
`a += b; c += d; b = ROTATE(b,s) ^ a; d = ROTATE(d,t) ^ c; a = ROTATE(a,32)`. -/
def halfRound (a b c d s t : Nat) : Nat × Nat × Nat × Nat :=
  let a1 := mask64 (a + b)
  let c1 := mask64 (c + d)
  let b1 := rotl64 b s ^^^ a1
  let d1 := rotl64 d t ^^^ c1
  (rotl64 a1 32, b1, c1, d1)

/-- `SINGLE_ROUND(v0,v1,v2,v3)` from `Python/pyhash.c`:
`HALF_ROUND(v0,v1,v2,v3,13,16); HALF_ROUND(v2,v1,v0,v3,17,21)`. -/
def sipRound (v0 v1 v2 v3 : Nat) : Nat × Nat × Nat × Nat :=
  let s := halfRound v0 v1 v2 v3 13 16
  let r := halfRound s.2.2.1 s.2.1 s.1 s.2.2.2 17 21
  (r.2.2.1, r.2.1, r.1, r.2.2.2)

/-- Little-endian interpretation of a byte list as an unsigned integer. -/
def le64 (bs : List Nat) : Nat := bs.foldr (fun b acc => b + 2 ^ 8 * acc) 0

/-- Absorb all full 8-byte blocks of the message
(`v3 ^= mi; SINGLE_ROUND; v0 ^= mi` per block), returning the state and
the at-most-7 remaining bytes. -/
def sipBlocks : List Nat → Nat × Nat × Nat × Nat → (Nat × Nat × Nat × Nat) × List Nat
  | b0 :: b1 :: b2 :: b3 :: b4 :: b5 :: b6 :: b7 :: rest, (v0, v1, v2, v3) =>
    let mi := le64 [b0, b1, b2, b3, b4, b5, b6, b7]
    let s := sipRound v0 v1 v2 (v3 ^^^ mi)
    sipBlocks rest (s.1 ^^^ mi, s.2.1, s.2.2.1, s.2.2.2)
  | rest, st => (st, rest)

/-- SipHash-1-3 with key halves `k0, k1` over a byte list, exactly as
`pysiphash13` in `Python/pyhash.c`. -/
def siphash13 (k0 k1 : Nat) (data : List Nat) : Nat :=
  let v0 := mask64 k0 ^^^ 0x736f6d6570736575
  let v1 := mask64 k1 ^^^ 0x646f72616e646f6d
  let v2 := mask64 k0 ^^^ 0x6c7967656e657261
  let v3 := mask64 k1 ^^^ 0x7465646279746573
  let br := sipBlocks data (v0, v1, v2, v3)
  let st := br.1
  let t := mask64 (data.length <<< 56) ||| le64 br.2
  let s1 := sipRound st.1 st.2.1 st.2.2.1 (st.2.2.2 ^^^ t)
  let s2 := sipRound (s1.1 ^^^ t) s1.2.1 (s1.2.2.1 ^^^ 0xff) s1.2.2.2
  let s3 := sipRound s2.1 s2.2.1 s2.2.2.1 s2.2.2.2
  let s4 := sipRound s3.1 s3.2.1 s3.2.2.1 s3.2.2.2
  (s4.1 ^^^ s4.2.1) ^^^ (s4.2.2.1 ^^^ s4.2.2.2)

/-- CPython `hash(s)` for an ASCII `str` under process hash secret
`(k0, k1)`: SipHash of the one-byte-per-character representation, cast to
the signed `Py_hash_t`, with the reserved value `-1` mapped to `-2` and the
empty string hashing to `0` (`pysiphash` / `unicode_hash` in CPython). -/
def pyStrHash (k0 k1 : Nat) (s : String) : Int :=
  if s.length = 0 then 0
  else
    let h := siphash13 k0 k1 (s.data.map Char.toNat)
    let signed : Int := if h < 2 ^ 63 then (h : Int) else (h : Int) - 2 ^ 64
    if signed = -1 then -2 else signed

/-- The numpy seed derived in `_simulate_molecular_mechanics`:
`mol_hash = hash(molecule_smiles) % 1000000` (Python `%` on a positive
modulus is non-negative, matching `Int.emod`). -/
def molHashSeed (k0 k1 : Nat) (s : String) : Int :=
  pyStrHash k0 k1 s % 1000000

/-! ### Tradition-aware ADMET predictor (tradition_aware_admet_predictor.py) -/

/-- Numeric fields of the `TraditionalEnhancerProfile` dataclass rows used
by the predictor's arithmetic. -/
structure TraditionalEnhancerProfile where
  bioavailability_multiplier : ℚ
  absorption_rate_modifier : ℚ
  metabolism_inhibition : ℚ
  safety_enhancement : ℚ
deriving DecidableEq

/-- The static enhancer table built by the enhancer-database constructor:
piperine, ginger, ghee and honey, with the literal numeric parameters of
the source.  Any other name is absent (`none`). -/
def traditional_enhancers (name : String) : Option TraditionalEnhancerProfile :=
  if name = "piperine" then some ⟨20, 1.8, 0.65, 0.95⟩
  else if name = "ginger" then some ⟨3.2, 1.4, 0.15, 0.98⟩
  else if name = "ghee" then some ⟨4.8, 0.8, 0.05, 0.99⟩
  else if name = "honey" then some ⟨2.1, 1.2, 0.10, 0.97⟩
  else none

/-- One row of the `preparation_routes` table. -/
structure RouteParams where
  bioavailability_base : ℚ
  enhancement_potential : ℚ
  safety_multiplier : ℚ
deriving DecidableEq

/-- The static route table built by the preparation-routes constructor. -/
def preparation_routes (route : String) : Option RouteParams :=
  if route = "oral_traditional" then some ⟨0.35, 15, 1.2⟩
  else if route = "sublingual" then some ⟨0.65, 2, 1.1⟩
  else if route = "nasal" then some ⟨0.55, 3, 0.9⟩
  else none

/-- `_calculate_base_admet` looks the route up with
`self.preparation_routes.get(route, self.preparation_routes["oral_traditional"])`:
an unknown route silently falls back to the oral-traditional row. -/
def route_params (route : String) : RouteParams :=
  (preparation_routes route).getD ⟨0.35, 15, 1.2⟩

/-- The `ADMETProperties` dataclass, all seventeen numeric fields. -/
structure ADMETProperties where
  bioavailability_percent : ℚ
  absorption_rate_constant : ℚ
  time_to_peak_hours : ℚ
  volume_of_distribution : ℚ
  protein_binding_percent : ℚ
  tissue_penetration : ℚ
  elimination_half_life_hours : ℚ
  clearance_ml_min_kg : ℚ
  cyp_interaction_risk : ℚ
  renal_clearance_percent : ℚ
  biliary_excretion_percent : ℚ
  hepatotoxicity_risk : ℚ
  cardiotoxicity_risk : ℚ
  traditional_safety_enhancement : ℚ
  bioavailability_improvement_fold : ℚ
  traditional_preparation_score : ℚ
  cultural_context_alignment : ℚ
deriving DecidableEq

/-- The timing dictionary consumed through
`timing.get('fasting_state', False)`, `timing.get('optimal_circadian', False)`
and `timing.get('lunar_phase', 0.5)`. -/
structure Timing where
  fasting_state : Bool
  optimal_circadian : Bool
  lunar_phase : ℚ
deriving DecidableEq

/-- The thirteen pseudo-random draws made by `_calculate_base_admet` after
seeding numpy, as explicit inputs.  `bio_u` is the `np.random.uniform(0.7, 1.3)`
factor; the other fields are the centred normal draws in source order. -/
structure BaseDraws where
  bio_u : ℚ
  absorption_n : ℚ
  tpeak_n : ℚ
  vd_n : ℚ
  protein_n : ℚ
  tissue_n : ℚ
  halflife_n : ℚ
  clearance_n : ℚ
  cyp_n : ℚ
  renal_n : ℚ
  biliary_n : ℚ
  hep_n : ℚ
  cardio_n : ℚ
deriving DecidableEq

/-- `_calculate_base_admet`: base ADMET properties before traditional
enhancement, with the pseudo-random draws supplied through `d`. -/
def calculate_base_admet (d : BaseDraws) (route : String) : ADMETProperties :=
  let rp := route_params route
  { bioavailability_percent := rp.bioavailability_base * 100 * d.bio_u
    absorption_rate_constant := 0.5 + d.absorption_n
    time_to_peak_hours := 1.5 + d.tpeak_n
    volume_of_distribution := 2.5 + d.vd_n
    protein_binding_percent := 75.0 + d.protein_n
    tissue_penetration := 0.6 + d.tissue_n
    elimination_half_life_hours := 4.0 + d.halflife_n
    clearance_ml_min_kg := 15.0 + d.clearance_n
    cyp_interaction_risk := 0.3 + d.cyp_n
    renal_clearance_percent := 60.0 + d.renal_n
    biliary_excretion_percent := 25.0 + d.biliary_n
    hepatotoxicity_risk := 0.15 + d.hep_n
    cardiotoxicity_risk := 0.10 + d.cardio_n
    traditional_safety_enhancement := 0.85
    bioavailability_improvement_fold := 1.0
    traditional_preparation_score := 0.5
    cultural_context_alignment := 0.7 }

/-- One iteration of the enhancer loop of `_apply_enhancer_effects` on the
accumulator `(total_bioavail_mult, min_safety, avg_absorption_mod)`: a name
found in the enhancer table multiplies the running total by its multiplier
— diminished to `1 + (mult - 1) * 0.7` whenever the running total already
exceeds `1` — takes the minimum of the safety factors and averages in the
absorption modifier.  Names absent from the table are silently skipped
(`if enhancer_name in self.traditional_enhancers`). -/
def enhancer_step (acc : ℚ × ℚ × ℚ) (name : String) : ℚ × ℚ × ℚ :=
  match traditional_enhancers name with
  | none => acc
  | some pr =>
    let m := if 1 < acc.1 then 1 + (pr.bioavailability_multiplier - 1) * 0.7
             else pr.bioavailability_multiplier
    (acc.1 * m, min acc.2.1 pr.safety_enhancement,
      (acc.2.2 + pr.absorption_rate_modifier) / 2)

/-- The full enhancer loop of `_apply_enhancer_effects`, starting from
`(total_bioavail_mult, min_safety, avg_absorption_mod) = (1, 1, 1)`. -/
def enhancer_fold (enhancers : List String) : ℚ × ℚ × ℚ :=
  enhancers.foldl enhancer_step (1, 1, 1)

/-- `_apply_enhancer_effects`: multiply bioavailability by the accumulated
multiplier, clamp at 95, scale absorption rate and time-to-peak by the
averaged modifier, and overwrite the safety field with the accumulated
minimum (also scaling the two toxicity risks by it). -/
def apply_enhancer_effects (a : ADMETProperties) (enhancers : List String) : ADMETProperties :=
  let f := enhancer_fold enhancers
  { a with
    bioavailability_percent := min (a.bioavailability_percent * f.1) 95
    absorption_rate_constant := a.absorption_rate_constant * f.2.2
    time_to_peak_hours := a.time_to_peak_hours / f.2.2
    traditional_safety_enhancement := f.2.1
    hepatotoxicity_risk := a.hepatotoxicity_risk * f.2.1
    cardiotoxicity_risk := a.cardiotoxicity_risk * f.2.1 }

/-- The multiplicative timing factor of `_apply_timing_effects`:
`1.25` when fasting, `1.15` at optimal circadian timing, and the lunar
factor `0.95 + 0.1 * |lunar_phase - 0.5|`. -/
def timing_multiplier (t : Timing) : ℚ :=
  (if t.fasting_state then 1.25 else 1) *
    (if t.optimal_circadian then 1.15 else 1) *
    (0.95 + 0.1 * |t.lunar_phase - 0.5|)

/-- `_apply_timing_effects`: fasting also scales time-to-peak by `0.8`;
bioavailability is multiplied by the timing factor and clamped at 95. -/
def apply_timing_effects (a : ADMETProperties) (t : Timing) : ADMETProperties :=
  let a1 := if t.fasting_state then
      { a with time_to_peak_hours := a.time_to_peak_hours * 0.8 }
    else a
  { a1 with
    bioavailability_percent := min (a1.bioavailability_percent * timing_multiplier t) 95 }

/-- `_calculate_preparation_score`: base `0.5`, plus `min(0.2 * count, 0.4)`
for a non-empty enhancer list, `0.1` each for fasting and circadian timing,
`0.1` for the oral-traditional route, clamped at `1`. -/
def calculate_preparation_score (enhancers : List String) (t : Timing) (route : String) : ℚ :=
  let s1 : ℚ := 0.5 + (if enhancers.isEmpty then 0 else min ((enhancers.length : ℚ) * 0.2) 0.4)
  let s2 := s1 + (if t.fasting_state then 0.1 else 0) + (if t.optimal_circadian then 0.1 else 0)
  let s3 := s2 + (if route = "oral_traditional" then 0.1 else 0)
  min s3 1

/-- `predict_traditional_admet`.  In the source, `_apply_enhancer_effects`
and `_apply_timing_effects` mutate their argument in place and return it,
so `base_admet`, `enhanced_admet` and `timed_admet` are one and the same
object; the final `bioavail_improvement = timed_admet.bioavailability_percent
/ base_admet.bioavailability_percent` therefore divides the enhanced value
by itself.  The embedding reflects that aliasing explicitly. -/
def predict_traditional_admet (d : BaseDraws) (enhancers : List String) (t : Timing)
    (route : String) : ADMETProperties :=
  let base := calculate_base_admet d route
  let timed := apply_timing_effects (apply_enhancer_effects base enhancers) t
  { timed with
    bioavailability_improvement_fold :=
      timed.bioavailability_percent / timed.bioavailability_percent
    traditional_preparation_score := calculate_preparation_score enhancers t route }

/-- The fixed list of enhancer combinations searched by
`optimize_traditional_preparation`. -/
def enhancer_combinations : List (List String) :=
  [["piperine"], ["ginger"], ["ghee"], ["piperine", "ghee"],
    ["ginger", "honey"], ["piperine", "ginger", "ghee"]]

/-- The fixed timing configuration used during the optimization search. -/
def optimal_timing : Timing := ⟨true, true, 0.25⟩

/-- The safety score of a combination inside the optimization loop:
the `traditional_safety_enhancement` of the predicted ADMET record. -/
def combination_safety (d : BaseDraws) (enhancers : List String) : ℚ :=
  (predict_traditional_admet d enhancers optimal_timing ("oral_traditional")).traditional_safety_enhancement

/-- The combined score of a combination inside the optimization loop:
`0.7 * min(bioavail / target, 1) + 0.3 * safety`. -/
def combination_score (d : BaseDraws) (target_bioavail : ℚ) (enhancers : List String) : ℚ :=
  let p := predict_traditional_admet d enhancers optimal_timing ("oral_traditional")
  0.7 * min (p.bioavailability_percent / target_bioavail) 1 +
    0.3 * p.traditional_safety_enhancement

/-- `optimize_traditional_preparation`: iterate the fixed combinations with
`best_score = 0.0` and strict `>` updates, only considering combinations
whose safety meets the threshold; fall back to `["piperine", "ghee"]` with
score `0.8` when nothing qualified. -/
def optimize_traditional_preparation (d : BaseDraws) (target_bioavail safety_threshold : ℚ) :
    List String × ℚ :=
  let r := enhancer_combinations.foldl
    (fun (acc : Option (List String) × ℚ) es =>
      if safety_threshold ≤ combination_safety d es then
        if acc.2 < combination_score d target_bioavail es then
          (some es, combination_score d target_bioavail es)
        else acc
      else acc)
    (none, 0)
  match r with
  | (some es, sc) => (es, sc)
  | (none, _) => (["piperine", "ghee"], 0.8)

/-! ### Best-solvent selection (complete_integration_pipeline.py)

`process_traditional_plant` selects the best solvent with

    best_solvent = None
    best_binding = 0.0
    for solvent in candidates:
        ...
        if binding_results['binding_affinity_pKd'] > best_binding:
            best_binding = binding_results['binding_affinity_pKd']
            best_solvent = solvent

and afterwards reads `classical_results[best_solvent]`.  The binding
affinity of each candidate is a pseudo-random float; the loop is embedded
over an arbitrary assignment of affinities to candidate names. -/

/-- The selection loop: current best (name, affinity), strict `>` update. -/
def selectLoop {α : Type} : List (α × ℚ) → Option α × ℚ → Option α × ℚ
  | [], acc => acc
  | p :: t, acc => selectLoop t (if acc.2 < p.2 then (some p.1, p.2) else acc)

/-- Best-solvent selection over candidate/affinity pairs, starting from
`best_solvent = None`, `best_binding = 0.0` as in the source. -/
def select_best_solvent (candidates : List (String × ℚ)) : Option String × ℚ :=
  selectLoop candidates (none, 0)

/-- Failure modes of the selection step.  `keyError` models the Python
`KeyError` raised by `classical_results[best_solvent]` when `best_solvent`
is still `None`; `emptyCandidateSet` is the distinguished error the spec
requires for an empty candidate list (no code in the source raises it). -/
inductive PipelineErr
  | keyError
  | emptyCandidateSet
deriving DecidableEq

/-- The selection step followed by the source's
`best_molecular_props = classical_results[best_solvent]` lookup: when the
loop never updated (`best_solvent is None`), the dictionary lookup raises
`KeyError`. -/
def lookup_best_results (candidates : List (String × ℚ)) : Except PipelineErr String :=
  match (select_best_solvent candidates).1 with
  | some s => Except.ok s
  | none => Except.error PipelineErr.keyError

/-! ### Classical binding simulator scoring (classical_binding_simulator.py) -/

/-- The solvent parameters consumed by `_calculate_pose_confidence` and
`_predict_bioavailability`. -/
structure TraditionalSolvent where
  dielectric_constant : ℚ
  viscosity : ℚ
  lipophilicity_factor : ℚ
  cultural_potency_modifier : ℚ
  bioavailability_enhancement : ℚ
deriving DecidableEq

/-- The static solvent table of `_initialize_traditional_solvents`
(ghee, coconut oil, neem oil, honey, sesame oil). -/
def traditional_solvents (name : String) : Option TraditionalSolvent :=
  if name = "ghee" then some ⟨3.2, 45, 2.3, 1.8, 3.2⟩
  else if name = "coconut_oil" then some ⟨2.8, 32, 2.1, 1.6, 2.8⟩
  else if name = "neem_oil" then some ⟨4.1, 48.5, 1.9, 2.1, 2.2⟩
  else if name = "honey" then some ⟨16.5, 2000, 0.6, 1.9, 1.8⟩
  else if name = "sesame_oil" then some ⟨3.4, 38, 2.0, 1.7, 2.5⟩
  else none

/-- `_predict_bioavailability`: solvent enhancement plus solvation, binding
and cultural contributions, floored at `1` (`max(total_enhancement, 1.0)`). -/
def predict_bioavailability (sol : TraditionalSolvent)
    (solvation_free_energy traditional_solvent_binding : ℚ) : ℚ :=
  max (sol.bioavailability_enhancement + |solvation_free_energy| * 0.01 +
    |traditional_solvent_binding| * 0.05 + (sol.cultural_potency_modifier - 1) * 0.5) 1

/-- `_calculate_pose_confidence`: base confidence `0.88`/`0.72` depending on
whether the target's traditional affinity is known, scaled by the potency
and viscosity factors, clamped at `1`. -/
def calculate_pose_confidence (traditional_affinity_known : Bool)
    (sol : TraditionalSolvent) : ℚ :=
  let base_confidence : ℚ := if traditional_affinity_known then 0.88 else 0.72
  let solvent_factor := min (sol.cultural_potency_modifier / 2) 1
  let viscosity_factor := 1 - min (sol.viscosity / 2000) 0.3
  min (base_confidence * solvent_factor * viscosity_factor) 1

/-- The `development_confidence` field of `OptimizationResults` as compiled
by `process_traditional_plant`:
`min(plant.bioactivity_confidence * optimization['optimization_score'], 1.0)`. -/
def development_confidence (bioactivity_confidence optimization_score : ℚ) : ℚ :=
  min (bioactivity_confidence * optimization_score) 1

/-! ### EquiPath compensation (equipath_integration.py) -/

/-- The `knowledge_type_weights` dictionary of `assess_contribution_value`,
read with `.get(knowledge_type, 0.3)`. -/
def knowledge_type_weights (knowledge_type : String) : ℚ :=
  if knowledge_type = "chemical" then 0.4
  else if knowledge_type = "preparation" then 0.3
  else if knowledge_type = "cultural_context" then 0.3
  else 0.3

/-- `assess_contribution_value`: the weighted value score
`value*0.4 + type_weight*0.2 + community*0.2 + significance*0.2`, clamped
at `1`. -/
def assess_contribution_value (contribution_value : ℚ) (knowledge_type : String)
    (community_consensus significance : ℚ) : ℚ :=
  min (contribution_value * 0.4 + knowledge_type_weights knowledge_type * 0.2 +
    community_consensus * 0.2 + significance * 0.2) 1

/-- The compensation amount of `create_compensation_record`:
`base_compensation(1000) * (contribution_value * 10)`. -/
def compensation_amount (contribution_value : ℚ) : ℚ :=
  1000 * (contribution_value * 10)

/-- A concrete `ADMETProperties` record at the distribution means of
`_calculate_base_admet` (oral-traditional route, all normal draws at their
centre, uniform draw at `8/7` so that the base bioavailability is `40`),
used to evaluate the predictor at explicit inputs. -/
def demo_base : ADMETProperties :=
  ⟨40, 0.5, 1.5, 2.5, 75, 0.6, 4, 15, 0.3, 60, 25, 0.15, 0.1, 0.85, 1, 0.5, 0.7⟩

/-- The table multiplier of an enhancer name (`1` for names outside the
table; only applied to table names in the statements below). -/
def multOf (name : String) : ℚ :=
  ((traditional_enhancers name).map TraditionalEnhancerProfile.bioavailability_multiplier).getD 1

/-- Concrete pseudo-random draws with the uniform factor at `1` and all
normal draws at their centre, used to evaluate the predictor. -/
def demo_draws : BaseDraws := ⟨1, 0, 0, 0, 0, 0, 0, 0, 0, 0, 0, 0, 0⟩

/-! ### Helper lemmas -/

/-- Unfolding of one enhancer-loop step at a table name. -/
lemma enhancer_step_some (acc : ℚ × ℚ × ℚ) (name : String)
    (pr : TraditionalEnhancerProfile) (h : traditional_enhancers name = some pr) :
    enhancer_step acc name =
      (acc.1 * (if 1 < acc.1 then 1 + (pr.bioavailability_multiplier - 1) * 0.7
        else pr.bioavailability_multiplier),
       min acc.2.1 pr.safety_enhancement, (acc.2.2 + pr.absorption_rate_modifier) / 2) := by
  unfold enhancer_step
  rw [h]

/-- Unfolding of one enhancer-loop step at an unknown name: a no-op. -/
lemma enhancer_step_none (acc : ℚ × ℚ × ℚ) (name : String)
    (h : traditional_enhancers name = none) :
    enhancer_step acc name = acc := by
  unfold enhancer_step
  rw [h]

/-- Every row of the enhancer table has multiplier above `1` and safety
factor in `(0, 1]`. -/
lemma traditional_enhancers_spec (name : String) (pr : TraditionalEnhancerProfile)
    (h : traditional_enhancers name = some pr) :
    1 < pr.bioavailability_multiplier ∧ 0 < pr.safety_enhancement ∧
      pr.safety_enhancement ≤ 1 := by
  unfold traditional_enhancers at h
  split_ifs at h <;> simp only [Option.some.injEq] at h <;> subst h <;> norm_num

/-- The route table, defaulted lookup included, always yields a positive
base bioavailability fraction. -/
lemma route_params_base_pos (route : String) :
    0 < (route_params route).bioavailability_base := by
  unfold route_params preparation_routes
  split_ifs <;> norm_num [Option.getD]

/-- The running bioavailability multiplier of the enhancer loop never drops
below `1`. -/
lemma enhancer_foldl_mult_le (enhancers : List String) :
    ∀ acc : ℚ × ℚ × ℚ, 1 ≤ acc.1 → 1 ≤ (enhancers.foldl enhancer_step acc).1 := by
  induction enhancers with
  | nil => intro acc h; exact h
  | cons n t ih =>
    intro acc h
    rw [List.foldl_cons]
    apply ih
    unfold enhancer_step
    rcases hcase : traditional_enhancers n with _ | pr
    · exact h
    · have hpr := traditional_enhancers_spec n pr hcase
      simp only
      split_ifs with hm <;> nlinarith [hpr.1]

/-- The accumulated multiplier of the full enhancer loop is at least `1`. -/
lemma enhancer_fold_mult_le (enhancers : List String) : 1 ≤ (enhancer_fold enhancers).1 :=
  enhancer_foldl_mult_le enhancers (1, 1, 1) le_rfl

/-- The running minimum safety factor of the enhancer loop stays in
`(0, 1]`. -/
lemma enhancer_foldl_safety (enhancers : List String) :
    ∀ acc : ℚ × ℚ × ℚ, 0 < acc.2.1 → acc.2.1 ≤ 1 →
      0 < (enhancers.foldl enhancer_step acc).2.1 ∧
        (enhancers.foldl enhancer_step acc).2.1 ≤ 1 := by
  induction enhancers with
  | nil => intro acc h0 h1; exact ⟨h0, h1⟩
  | cons n t ih =>
    intro acc h0 h1
    rw [List.foldl_cons]
    rcases hcase : traditional_enhancers n with _ | pr
    · have hstep : enhancer_step acc n = acc := by unfold enhancer_step; rw [hcase]
      rw [hstep]; exact ih acc h0 h1
    · have hpr := traditional_enhancers_spec n pr hcase
      have hstep : (enhancer_step acc n).2.1 = min acc.2.1 pr.safety_enhancement := by
        unfold enhancer_step; rw [hcase]
      apply ih
      · rw [hstep]; exact lt_min h0 hpr.2.1
      · rw [hstep]; exact le_trans (min_le_left _ _) h1

/-- The accumulated safety factor of the full enhancer loop is in `(0, 1]`. -/
lemma enhancer_fold_safety (enhancers : List String) :
    0 < (enhancer_fold enhancers).2.1 ∧ (enhancer_fold enhancers).2.1 ≤ 1 :=
  enhancer_foldl_safety enhancers (1, 1, 1) (by norm_num) le_rfl

/-- Once the running multiplier exceeds `1`, every further table enhancer
contributes exactly its diminished factor `1 + (mult - 1) * 0.7`. -/
lemma enhancer_foldl_mult_eq (rest : List String) :
    ∀ acc : ℚ × ℚ × ℚ, 1 < acc.1 → (∀ n ∈ rest, (traditional_enhancers n).isSome) →
      (rest.foldl enhancer_step acc).1 =
        acc.1 * (rest.map (fun n => 1 + (multOf n - 1) * 0.7)).prod := by
  induction rest with
  | nil => intro acc h _; simp
  | cons n t ih =>
    intro acc h hvalid
    rcases hcase : traditional_enhancers n with _ | pr
    · exact absurd (hvalid n (List.mem_cons_self n t)) (by simp [hcase])
    · have hpr := traditional_enhancers_spec n pr hcase
      have hmult : multOf n = pr.bioavailability_multiplier := by
        unfold multOf; rw [hcase]; rfl
      have hstep : enhancer_step acc n =
          (acc.1 * (1 + (pr.bioavailability_multiplier - 1) * 0.7), min acc.2.1 pr.safety_enhancement,
            (acc.2.2 + pr.absorption_rate_modifier) / 2) := by
        unfold enhancer_step; rw [hcase]; simp only [if_pos h]
      rw [List.foldl_cons, hstep,
        ih _ (by nlinarith [hpr.1]) (fun m hm => hvalid m (List.mem_cons_of_mem n hm))]
      rw [List.map_cons, List.prod_cons, hmult]
      ring

/-- The timing factor of `_apply_timing_effects` is at least `0.95`
(fasting and circadian factors are at least `1`, the lunar factor at least
`0.95`). -/
lemma timing_multiplier_ge (t : Timing) : 0.95 ≤ timing_multiplier t := by
  unfold timing_multiplier
  have h1 : (1 : ℚ) ≤ (if t.fasting_state then 1.25 else 1) := by split <;> norm_num
  have h2 : (1 : ℚ) ≤ (if t.optimal_circadian then 1.15 else 1) := by split <;> norm_num
  have h3 : (0.95 : ℚ) ≤ 0.95 + 0.1 * |t.lunar_phase - 0.5| := by
    nlinarith [abs_nonneg (t.lunar_phase - 0.5)]
  calc (0.95 : ℚ) = 1 * 0.95 := by norm_num
    _ ≤ ((if t.fasting_state then 1.25 else 1) * (if t.optimal_circadian then 1.15 else 1)) *
        (0.95 + 0.1 * |t.lunar_phase - 0.5|) := by
        apply mul_le_mul _ h3 (by norm_num) (by nlinarith)
        nlinarith
    _ = _ := by ring

/-- The timing factor is positive. -/
lemma timing_multiplier_pos (t : Timing) : 0 < timing_multiplier t :=
  lt_of_lt_of_le (by norm_num) (timing_multiplier_ge t)

/-- Bioavailability after `_apply_enhancer_effects`. -/
lemma apply_enhancer_bio (a : ADMETProperties) (enhancers : List String) :
    (apply_enhancer_effects a enhancers).bioavailability_percent =
      min (a.bioavailability_percent * (enhancer_fold enhancers).1) 95 := rfl

/-- Safety after `_apply_enhancer_effects` is the accumulated minimum. -/
lemma apply_enhancer_safety (a : ADMETProperties) (enhancers : List String) :
    (apply_enhancer_effects a enhancers).traditional_safety_enhancement =
      (enhancer_fold enhancers).2.1 := rfl

/-- Bioavailability after `_apply_timing_effects`. -/
lemma apply_timing_bio (a : ADMETProperties) (t : Timing) :
    (apply_timing_effects a t).bioavailability_percent =
      min (a.bioavailability_percent * timing_multiplier t) 95 := by
  unfold apply_timing_effects
  cases h : t.fasting_state <;> simp [h]

/-- `_apply_timing_effects` does not touch the safety field. -/
lemma apply_timing_safety (a : ADMETProperties) (t : Timing) :
    (apply_timing_effects a t).traditional_safety_enhancement =
      a.traditional_safety_enhancement := by
  unfold apply_timing_effects
  cases h : t.fasting_state <;> simp [h]

/-- Closed form of the bioavailability output of `predict_traditional_admet`. -/
lemma predict_bio (d : BaseDraws) (enhancers : List String) (t : Timing) (route : String) :
    (predict_traditional_admet d enhancers t route).bioavailability_percent =
      min (min ((route_params route).bioavailability_base * 100 * d.bio_u *
        (enhancer_fold enhancers).1) 95 * timing_multiplier t) 95 := by
  show (apply_timing_effects (apply_enhancer_effects (calculate_base_admet d route) enhancers)
    t).bioavailability_percent = _
  rw [apply_timing_bio, apply_enhancer_bio]
  rfl

/-- The safety output of `predict_traditional_admet` is the enhancer-loop
minimum. -/
lemma predict_safety (d : BaseDraws) (enhancers : List String) (t : Timing) (route : String) :
    (predict_traditional_admet d enhancers t route).traditional_safety_enhancement =
      (enhancer_fold enhancers).2.1 := by
  show (apply_timing_effects (apply_enhancer_effects (calculate_base_admet d route) enhancers)
    t).traditional_safety_enhancement = _
  rw [apply_timing_safety, apply_enhancer_safety]

/-- The improvement fold reported by `predict_traditional_admet` is the
enhanced bioavailability divided by itself (the aliasing of the source). -/
lemma predict_fold (d : BaseDraws) (enhancers : List String) (t : Timing) (route : String) :
    (predict_traditional_admet d enhancers t route).bioavailability_improvement_fold =
      (predict_traditional_admet d enhancers t route).bioavailability_percent /
        (predict_traditional_admet d enhancers t route).bioavailability_percent := rfl

/-- With a uniform draw in range, the predicted bioavailability is positive. -/
lemma predict_bio_pos (d : BaseDraws) (enhancers : List String) (t : Timing) (route : String)
    (hu : 0.7 ≤ d.bio_u) :
    0 < (predict_traditional_admet d enhancers t route).bioavailability_percent := by
  rw [predict_bio]
  have hrb := route_params_base_pos route
  have hM := enhancer_fold_mult_le enhancers
  have hT := timing_multiplier_pos t
  apply lt_min _ (by norm_num)
  apply mul_pos _ hT
  apply lt_min _ (by norm_num)
  have hu0 : 0 < d.bio_u := by linarith
  exact mul_pos (mul_pos (mul_pos hrb (by norm_num)) hu0) (lt_of_lt_of_le one_pos hM)

/-- If nothing in the list beats the current best, the selection loop keeps
its accumulator. -/
lemma selectLoop_of_le {α : Type} (l : List (α × ℚ)) :
    ∀ acc : Option α × ℚ, (∀ q ∈ l, q.2 ≤ acc.2) → selectLoop l acc = acc := by
  induction l with
  | nil => intro acc _; rfl
  | cons p t ih =>
    intro acc h
    have hp : ¬ acc.2 < p.2 := not_lt.mpr (h p (List.mem_cons_self p t))
    show selectLoop t (if acc.2 < p.2 then (some p.1, p.2) else acc) = acc
    rw [if_neg hp]
    exact ih acc fun q hq => h q (List.mem_cons_of_mem p hq)

/-- When some element beats the accumulator, the selection loop returns the
earliest element that is maximal: everything before it is strictly below it
and everything in the list is at most it (strict `>` keeps the first of a
tie). -/
lemma selectLoop_first_max {α : Type} (l : List (α × ℚ)) :
    ∀ acc : Option α × ℚ, (∃ p ∈ l, acc.2 < p.2) →
      ∃ l₁ p l₂, l = l₁ ++ p :: l₂ ∧ selectLoop l acc = (some p.1, p.2) ∧
        (∀ q ∈ l₁, q.2 < p.2) ∧ (∀ q ∈ l, q.2 ≤ p.2) ∧ acc.2 < p.2 := by
  induction l with
  | nil => intro acc h; simp at h
  | cons x t ih =>
    intro acc h
    by_cases hx : acc.2 < x.2
    · by_cases ht : ∀ q ∈ t, q.2 ≤ x.2
      · refine ⟨[], x, t, rfl, ?_, by simp, ?_, hx⟩
        · show selectLoop t (if acc.2 < x.2 then (some x.1, x.2) else acc) = _
          rw [if_pos hx]
          exact selectLoop_of_le t _ ht
        · intro q hq
          rcases List.mem_cons.mp hq with rfl | hq
          · exact le_rfl
          · exact ht q hq
      · push_neg at ht
        obtain ⟨q₀, hq₀, hlt₀⟩ := ht
        obtain ⟨l₁, p, l₂, hsplit, hsel, hbefore, hall, hacc⟩ :=
          ih (some x.1, x.2) ⟨q₀, hq₀, hlt₀⟩
        refine ⟨x :: l₁, p, l₂, by rw [hsplit]; rfl, ?_, ?_, ?_, lt_trans hx hacc⟩
        · show selectLoop t (if acc.2 < x.2 then (some x.1, x.2) else acc) = _
          rw [if_pos hx]
          exact hsel
        · intro q hq
          rcases List.mem_cons.mp hq with rfl | hq
          · exact hacc
          · exact hbefore q hq
        · intro q hq
          rcases List.mem_cons.mp hq with rfl | hq
          · exact le_of_lt hacc
          · exact hall q hq
    · obtain ⟨p₀, hp₀, hlt₀⟩ := h
      have hp₀t : p₀ ∈ t := by
        rcases List.mem_cons.mp hp₀ with rfl | hmem
        · exact absurd hlt₀ hx
        · exact hmem
      obtain ⟨l₁, p, l₂, hsplit, hsel, hbefore, hall, hacc⟩ := ih acc ⟨p₀, hp₀t, hlt₀⟩
      refine ⟨x :: l₁, p, l₂, by rw [hsplit]; rfl, ?_, ?_, ?_, hacc⟩
      · show selectLoop t (if acc.2 < x.2 then (some x.1, x.2) else acc) = _
        rw [if_neg hx]
        exact hsel
      · intro q hq
        rcases List.mem_cons.mp hq with rfl | hq
        · exact lt_of_le_of_lt (not_lt.mp hx) hacc
        · exact hbefore q hq
      · intro q hq
        rcases List.mem_cons.mp hq with rfl | hq
        · exact le_of_lt (lt_of_le_of_lt (not_lt.mp hx) hacc)
        · exact hall q hq

/-- The guarded fold of `optimize_traditional_preparation` is the selection
loop over the qualifying combinations paired with their scores. -/
lemma optimize_foldl_eq (d : BaseDraws) (target_bioavail safety_threshold : ℚ) :
    ∀ (l : List (List String)) (acc : Option (List String) × ℚ),
      l.foldl
        (fun (acc : Option (List String) × ℚ) es =>
          if safety_threshold ≤ combination_safety d es then
            if acc.2 < combination_score d target_bioavail es then
              (some es, combination_score d target_bioavail es)
            else acc
          else acc)
        acc =
      selectLoop ((l.filter fun es => decide (safety_threshold ≤ combination_safety d es)).map
        fun es => (es, combination_score d target_bioavail es)) acc := by
  intro l
  induction l with
  | nil => intro acc; rfl
  | cons es t ih =>
    intro acc
    by_cases hq : safety_threshold ≤ combination_safety d es
    · rw [List.foldl_cons, if_pos hq, List.filter_cons_of_pos (by simpa using hq), List.map_cons]
      show _ = selectLoop _ (if acc.2 < combination_score d target_bioavail es then _ else acc)
      by_cases hs : acc.2 < combination_score d target_bioavail es
      · rw [if_pos hs]
        exact ih _
      · rw [if_neg hs]
        exact ih _
    · rw [List.foldl_cons, if_neg hq, List.filter_cons_of_neg (by simpa using hq)]
      exact ih _

/-- Every combination score in the optimization loop is positive when the
target is a positive percentage and the uniform draw is in range. -/
lemma combination_score_pos (d : BaseDraws) (target_bioavail : ℚ) (enhancers : List String)
    (hu : 0.7 ≤ d.bio_u) (ht : 0 < target_bioavail) :
    0 < combination_score d target_bioavail enhancers := by
  have hbio := predict_bio_pos d enhancers optimal_timing ("oral_traditional") hu
  have hsafe := (enhancer_fold_safety enhancers).1
  show 0 < 0.7 * min ((predict_traditional_admet d enhancers optimal_timing
      ("oral_traditional")).bioavailability_percent / target_bioavail) 1 +
    0.3 * (predict_traditional_admet d enhancers optimal_timing
      ("oral_traditional")).traditional_safety_enhancement
  rw [predict_safety]
  have hmin : 0 < min ((predict_traditional_admet d enhancers optimal_timing
      ("oral_traditional")).bioavailability_percent / target_bioavail) 1 :=
    lt_min (div_pos hbio ht) one_pos
  nlinarith

/-! ### Claim theorems -/

/-- Claim C1.  The property derivation is claimed to be deterministic across
processes and platforms, but the numpy seed that
`_simulate_molecular_mechanics` derives from the identifier string is
`hash(molecule_smiles) % 1000000`, where CPython's `hash` on strings is the
keyed SipHash-1-3 salted by the per-process hash secret.  Evaluating the
embedded hash on the identifier `"CCO"` under two different process secrets
`(0, 0)` and `(1, 0)` yields two different seeds (`316103` and `514832`),
so the drawn property values are not reproducible across processes whose
hash secrets differ — the default under hash randomization. -/
theorem C1_prng_seed_depends_on_hash_salt :
    molHashSeed 0 0 ("CCO") = 316103 ∧ molHashSeed 1 0 ("CCO") = 514832 ∧
      molHashSeed 0 0 ("CCO") ≠ molHashSeed 1 0 ("CCO") := by
  refine ⟨?_, ?_, ?_⟩ <;> decide

/-- Claim C2, counterexample.  With no enhancers and default timing
(`lunar_phase = 0.5`, no fasting, no circadian optimum), the lunar factor
`0.95 + 0.1 * |0.5 - 0.5| = 0.95` multiplies the bioavailability, so the
output (`38`) drops strictly below the unenhanced base value (`40`): the
claimed lower bound "at least the base value" is violated. -/
theorem C2_counterexample_lunar_decreases :
    (apply_timing_effects (apply_enhancer_effects demo_base [])
        ⟨false, false, 1/2⟩).bioavailability_percent <
      demo_base.bioavailability_percent := by
  rw [apply_timing_bio, apply_enhancer_bio]
  norm_num [demo_base, enhancer_fold, timing_multiplier, min_def]

/-- Claim C2, amended.  For every base record with bioavailability in
`[0, 95]`, every enhancer list and every timing input with lunar phase in
`[0, 1]`, the bioavailability after enhancer and timing effects is at most
`95` and at least `0.95` times the unenhanced base value (the lunar factor
can shave off up to 5%; every other factor is at least `1`). -/
theorem C2_bioavailability_bounds (a : ADMETProperties) (enhancers : List String) (t : Timing)
    (h0 : 0 ≤ a.bioavailability_percent) (h95 : a.bioavailability_percent ≤ 95)
    (hl0 : 0 ≤ t.lunar_phase) (hl1 : t.lunar_phase ≤ 1) :
    (apply_timing_effects (apply_enhancer_effects a enhancers) t).bioavailability_percent ≤ 95 ∧
      0.95 * a.bioavailability_percent ≤
        (apply_timing_effects (apply_enhancer_effects a enhancers) t).bioavailability_percent := by
  rw [apply_timing_bio, apply_enhancer_bio]
  refine ⟨min_le_right _ _, ?_⟩
  have hM := enhancer_fold_mult_le enhancers
  have hT := timing_multiplier_ge t
  have hT0 : (0 : ℚ) ≤ timing_multiplier t := le_of_lt (timing_multiplier_pos t)
  have hX : a.bioavailability_percent ≤
      min (a.bioavailability_percent * (enhancer_fold enhancers).1) 95 :=
    le_min (le_mul_of_one_le_right h0 hM) h95
  have step1 : a.bioavailability_percent * 0.95 ≤
      a.bioavailability_percent * timing_multiplier t :=
    mul_le_mul_of_nonneg_left hT h0
  have step2 : a.bioavailability_percent * timing_multiplier t ≤
      min (a.bioavailability_percent * (enhancer_fold enhancers).1) 95 * timing_multiplier t :=
    mul_le_mul_of_nonneg_right hX hT0
  exact le_min (by linarith) (by linarith)

/-- Claim C2, witness for the amended bound at a concrete input. -/
theorem C2_bioavailability_bounds_witness :
    (apply_timing_effects (apply_enhancer_effects demo_base ["ghee"])
        ⟨true, false, 0.25⟩).bioavailability_percent ≤ 95 ∧
      0.95 * demo_base.bioavailability_percent ≤
        (apply_timing_effects (apply_enhancer_effects demo_base ["ghee"])
          ⟨true, false, 0.25⟩).bioavailability_percent :=
  C2_bioavailability_bounds demo_base ["ghee"] ⟨true, false, 0.25⟩ (by decide) (by decide)
    (by norm_num) (by norm_num)

/-- Claim C3.  Because `_apply_enhancer_effects` and `_apply_timing_effects`
return the very record they mutate, `base_admet` and `timed_admet` alias in
`predict_traditional_admet`, and the reported improvement fold divides the
enhanced bioavailability by itself: it equals exactly `1` for every
compound draw, enhancer list, timing and route (the uniform draw being in
its range keeps the bioavailability non-zero). -/
theorem C3_improvement_fold_is_one (d : BaseDraws) (enhancers : List String) (t : Timing)
    (route : String) (h1 : 0.7 ≤ d.bio_u) (h2 : d.bio_u ≤ 1.3) :
    (predict_traditional_admet d enhancers t route).bioavailability_improvement_fold = 1 := by
  rw [predict_fold]
  exact div_self (ne_of_gt (predict_bio_pos d enhancers t route h1))

/-- Claim C3, witness at a concrete input. -/
theorem C3_improvement_fold_witness :
    (predict_traditional_admet demo_draws ["piperine", "ghee"] ⟨true, true, 0.25⟩
        ("oral_traditional")).bioavailability_improvement_fold = 1 :=
  C3_improvement_fold_is_one demo_draws ["piperine", "ghee"] ⟨true, true, 0.25⟩
    ("oral_traditional") (by norm_num [demo_draws]) (by norm_num [demo_draws])

/-- Claim C4.  The per-compound result invariants: the bioavailability fold
of `_predict_bioavailability` is at least `1`; the pose confidence of
`_calculate_pose_confidence` lies in `[0, 1]` for a non-negative cultural
potency; the accumulated safety enhancement lies in `[0, 1]` for every
enhancer list; and `development_confidence` lies in `[0, 1]` for
non-negative inputs. -/
theorem C4_result_invariants (sol : TraditionalSolvent)
    (solvation_free_energy traditional_solvent_binding : ℚ)
    (traditional_affinity_known : Bool) (enhancers : List String)
    (bioactivity_confidence optimization_score : ℚ)
    (hpot : 0 ≤ sol.cultural_potency_modifier)
    (hbc : 0 ≤ bioactivity_confidence) (hos : 0 ≤ optimization_score) :
    1 ≤ predict_bioavailability sol solvation_free_energy traditional_solvent_binding ∧
    (0 ≤ calculate_pose_confidence traditional_affinity_known sol ∧
      calculate_pose_confidence traditional_affinity_known sol ≤ 1) ∧
    (0 ≤ (enhancer_fold enhancers).2.1 ∧ (enhancer_fold enhancers).2.1 ≤ 1) ∧
    (0 ≤ development_confidence bioactivity_confidence optimization_score ∧
      development_confidence bioactivity_confidence optimization_score ≤ 1) := by
  refine ⟨le_max_right _ _, ⟨?_, min_le_right _ _⟩,
    ⟨le_of_lt (enhancer_fold_safety enhancers).1, (enhancer_fold_safety enhancers).2⟩,
    ⟨le_min (mul_nonneg hbc hos) (by norm_num), min_le_right _ _⟩⟩
  show 0 ≤ min ((if traditional_affinity_known then (0.88 : ℚ) else 0.72) *
    min (sol.cultural_potency_modifier / 2) 1 * (1 - min (sol.viscosity / 2000) 0.3)) 1
  have hbase : (0 : ℚ) ≤ (if traditional_affinity_known then (0.88 : ℚ) else 0.72) := by
    split <;> norm_num
  have hsf : (0 : ℚ) ≤ min (sol.cultural_potency_modifier / 2) 1 :=
    le_min (div_nonneg hpot (by norm_num)) (by norm_num)
  have hvf : (0 : ℚ) ≤ 1 - min (sol.viscosity / 2000) 0.3 := by
    have := min_le_right (sol.viscosity / 2000) (0.3 : ℚ)
    linarith
  exact le_min (mul_nonneg (mul_nonneg hbase hsf) hvf) (by norm_num)

/-- Claim C4, witness at the ghee solvent row and concrete scores. -/
theorem C4_result_invariants_witness :
    1 ≤ predict_bioavailability ⟨3.2, 45, 2.3, 1.8, 3.2⟩ (-15) (-10.5) ∧
    (0 ≤ calculate_pose_confidence true ⟨3.2, 45, 2.3, 1.8, 3.2⟩ ∧
      calculate_pose_confidence true ⟨3.2, 45, 2.3, 1.8, 3.2⟩ ≤ 1) ∧
    (0 ≤ (enhancer_fold ["piperine", "ghee"]).2.1 ∧
      (enhancer_fold ["piperine", "ghee"]).2.1 ≤ 1) ∧
    (0 ≤ development_confidence 0.92 0.8 ∧ development_confidence 0.92 0.8 ≤ 1) :=
  C4_result_invariants ⟨3.2, 45, 2.3, 1.8, 3.2⟩ (-15) (-10.5) true ["piperine", "ghee"]
    0.92 0.8 (by norm_num) (by norm_num) (by norm_num)

/-- Claim C5, counterexample.  The selection loop compares against an
initial `best_binding = 0.0`, not against the first candidate, so a
size-one candidate list whose affinity is `0` returns no candidate at all
(`best_solvent` stays `None`) instead of returning that single candidate. -/
theorem C5_counterexample_zero_affinity :
    select_best_solvent [("ghee", (0 : ℚ))] = (none, 0) ∧
      (select_best_solvent [("ghee", (0 : ℚ))]).1 ≠ some ("ghee") := by
  refine ⟨by decide, by decide⟩

/-- Claim C5, amended.  Provided some candidate has a strictly positive
binding affinity (which the `0.0` initialization requires), the selection
returns the earliest candidate achieving the maximum affinity — the strict
`>` comparison keeps the first of an exact tie — and a size-one list with
positive affinity returns that single candidate. -/
theorem C5_select_best_first_strict_max :
    (∀ l : List (String × ℚ), (∃ p ∈ l, 0 < p.2) →
      ∃ l₁ p l₂, l = l₁ ++ p :: l₂ ∧ select_best_solvent l = (some p.1, p.2) ∧
        (∀ q ∈ l₁, q.2 < p.2) ∧ ∀ q ∈ l, q.2 ≤ p.2) ∧
    ∀ (c : String) (a : ℚ), 0 < a → select_best_solvent [(c, a)] = (some c, a) := by
  constructor
  · intro l h
    obtain ⟨l₁, p, l₂, hsplit, hsel, hbefore, hall, _⟩ :=
      selectLoop_first_max l ((none : Option String), (0 : ℚ)) h
    exact ⟨l₁, p, l₂, hsplit, hsel, hbefore, hall⟩
  · intro c a ha
    simp [select_best_solvent, selectLoop, ha]

/-- Claim C5, witness: the amended statement applied to concrete candidate
lists, including an exact tie resolved to the earlier candidate. -/
theorem C5_select_best_witness :
    (∃ l₁ p l₂, [(("ghee" : String), (7 : ℚ)), ("honey", 7)] = l₁ ++ p :: l₂ ∧
      select_best_solvent [("ghee", 7), ("honey", 7)] = (some p.1, p.2) ∧
      (∀ q ∈ l₁, q.2 < p.2) ∧ ∀ q ∈ [(("ghee" : String), (7 : ℚ)), ("honey", 7)], q.2 ≤ p.2) ∧
    select_best_solvent [("ghee", 7)] = (some ("ghee"), 7) :=
  ⟨C5_select_best_first_strict_max.1 [("ghee", 7), ("honey", 7)]
      ⟨("ghee", 7), by decide, by norm_num⟩,
    C5_select_best_first_strict_max.2 ("ghee") 7 (by norm_num)⟩

/-- Claim C6.  On an empty candidate list the source's loop leaves
`best_solvent = None`, and the subsequent `classical_results[best_solvent]`
dictionary access fails with a Python `KeyError` — not with the
`EmptyCandidateSet` error the specification requires. -/
theorem C6_empty_candidates_key_error :
    lookup_best_results [] = Except.error PipelineErr.keyError ∧
      lookup_best_results [] ≠ Except.error PipelineErr.emptyCandidateSet := by
  refine ⟨rfl, fun h => ?_⟩
  have h2 : PipelineErr.keyError = PipelineErr.emptyCandidateSet := by
    have h1 : Except.error PipelineErr.keyError =
        (Except.error PipelineErr.emptyCandidateSet : Except PipelineErr String) := h
    injection h1
  exact PipelineErr.noConfusion h2

/-- Claim C7.  For every compound draw with the uniform factor in range and
every positive target percentage, `optimize_traditional_preparation` always
returns one of the six enumerated combinations (the fallback pair being
among them); when some combination meets the safety threshold the returned
one qualifies and maximizes `0.7 * min(bioavail/target, 1) + 0.3 * safety`
over all qualifying combinations, and when none qualifies it returns the
fallback `["piperine", "ghee"]`. -/
theorem C7_optimizer_enumerated_argmax (d : BaseDraws) (target_bioavail safety_threshold : ℚ)
    (hu : 0.7 ≤ d.bio_u) (ht : 0 < target_bioavail) :
    (optimize_traditional_preparation d target_bioavail safety_threshold).1 ∈
        enhancer_combinations ∧
    ((∃ es ∈ enhancer_combinations, safety_threshold ≤ combination_safety d es) →
      safety_threshold ≤ combination_safety d
          (optimize_traditional_preparation d target_bioavail safety_threshold).1 ∧
      ∀ es ∈ enhancer_combinations, safety_threshold ≤ combination_safety d es →
        combination_score d target_bioavail es ≤ combination_score d target_bioavail
          (optimize_traditional_preparation d target_bioavail safety_threshold).1) ∧
    ((∀ es ∈ enhancer_combinations, ¬ safety_threshold ≤ combination_safety d es) →
      (optimize_traditional_preparation d target_bioavail safety_threshold).1 =
        ["piperine", "ghee"]) := by
  have hopt : optimize_traditional_preparation d target_bioavail safety_threshold =
      match selectLoop ((enhancer_combinations.filter fun es =>
          decide (safety_threshold ≤ combination_safety d es)).map
          fun es => (es, combination_score d target_bioavail es)) (none, 0) with
      | (some es, sc) => (es, sc)
      | (none, _) => (["piperine", "ghee"], 0.8) := by
    unfold optimize_traditional_preparation
    rw [optimize_foldl_eq]
  by_cases hq : ∃ es ∈ enhancer_combinations, safety_threshold ≤ combination_safety d es
  · obtain ⟨es₀, hmem₀, hsafe₀⟩ := hq
    have hq0 : (es₀, combination_score d target_bioavail es₀) ∈
        (enhancer_combinations.filter fun es =>
          decide (safety_threshold ≤ combination_safety d es)).map
          fun es => (es, combination_score d target_bioavail es) :=
      List.mem_map_of_mem _ (List.mem_filter.mpr ⟨hmem₀, by simpa using hsafe₀⟩)
    have hpos := combination_score_pos d target_bioavail es₀ hu ht
    obtain ⟨l₁, p, l₂, hsplit, hsel, hbefore, hall, hacc⟩ :=
      selectLoop_first_max _ ((none : Option (List String)), (0 : ℚ)) ⟨_, hq0, hpos⟩
    have hpmem : p ∈ (enhancer_combinations.filter fun es =>
        decide (safety_threshold ≤ combination_safety d es)).map
        fun es => (es, combination_score d target_bioavail es) := by
      rw [hsplit]
      exact List.mem_append_right _ (List.mem_cons_self _ _)
    obtain ⟨es₁, hes₁, hp⟩ := List.mem_map.mp hpmem
    have hes₁mem : es₁ ∈ enhancer_combinations := (List.mem_filter.mp hes₁).1
    have hes₁safe : safety_threshold ≤ combination_safety d es₁ := by
      simpa using (List.mem_filter.mp hes₁).2
    have hres : optimize_traditional_preparation d target_bioavail safety_threshold =
        (es₁, combination_score d target_bioavail es₁) := by
      rw [hopt, hsel, ← hp]
    refine ⟨?_, fun _ => ⟨?_, ?_⟩, fun hnone => absurd hsafe₀ (hnone es₀ hmem₀)⟩
    · rw [hres]
      exact hes₁mem
    · rw [hres]
      exact hes₁safe
    · intro es hmem hsafe
      rw [hres]
      have hmemq : (es, combination_score d target_bioavail es) ∈
          (enhancer_combinations.filter fun es =>
            decide (safety_threshold ≤ combination_safety d es)).map
            fun es => (es, combination_score d target_bioavail es) :=
        List.mem_map_of_mem _ (List.mem_filter.mpr ⟨hmem, by simpa using hsafe⟩)
      have hle := hall _ hmemq
      rw [← hp] at hle
      exact hle
  · push_neg at hq
    have hfilter : (enhancer_combinations.filter fun es =>
        decide (safety_threshold ≤ combination_safety d es)) = [] := by
      rw [List.filter_eq_nil_iff]
      intro es hmem
      simpa using not_le.mpr (hq es hmem)
    have hres : optimize_traditional_preparation d target_bioavail safety_threshold =
        (["piperine", "ghee"], 0.8) := by
      rw [hopt, hfilter]
      rfl
    refine ⟨by rw [hres]; decide, fun hex => ?_, fun _ => by rw [hres]⟩
    obtain ⟨es, hmem, hsafe⟩ := hex
    exact absurd hsafe (not_le.mpr (hq es hmem))

/-- Claim C7, witness: the optimizer outcome at the pipeline's actual
arguments (target 75%, safety threshold 0.95). -/
theorem C7_optimizer_witness :
    (optimize_traditional_preparation demo_draws 75 0.95).1 ∈ enhancer_combinations ∧
    ((∃ es ∈ enhancer_combinations, (0.95 : ℚ) ≤ combination_safety demo_draws es) →
      (0.95 : ℚ) ≤ combination_safety demo_draws
          (optimize_traditional_preparation demo_draws 75 0.95).1 ∧
      ∀ es ∈ enhancer_combinations, (0.95 : ℚ) ≤ combination_safety demo_draws es →
        combination_score demo_draws 75 es ≤ combination_score demo_draws 75
          (optimize_traditional_preparation demo_draws 75 0.95).1) ∧
    ((∀ es ∈ enhancer_combinations, ¬ (0.95 : ℚ) ≤ combination_safety demo_draws es) →
      (optimize_traditional_preparation demo_draws 75 0.95).1 = ["piperine", "ghee"]) :=
  C7_optimizer_enumerated_argmax demo_draws 75 0.95 (by norm_num [demo_draws]) (by norm_num)

/-- Claim C8.  For every list of table enhancers, the first multiplies the
bioavailability by its full multiplier and every later one contributes the
diminished factor `1 + (mult - 1) * 0.7`, so the accumulated multiplier is
the full first multiplier times the product of the diminished factors of
the rest. -/
theorem C8_diminishing_returns_product (e : String) (rest : List String)
    (hvalid : ∀ n ∈ e :: rest, (traditional_enhancers n).isSome) :
    (enhancer_fold (e :: rest)).1 =
      multOf e * (rest.map fun n => 1 + (multOf n - 1) * 0.7).prod := by
  rcases hcase : traditional_enhancers e with _ | pr
  · exact absurd (hvalid e (List.mem_cons_self e rest)) (by simp [hcase])
  · have hpr := traditional_enhancers_spec e pr hcase
    have hmult : multOf e = pr.bioavailability_multiplier := by
      unfold multOf
      rw [hcase]
      rfl
    have hstep := enhancer_step_some (1, 1, 1) e pr hcase
    rw [if_neg (by norm_num : ¬ (1 : ℚ) < ((1 : ℚ), (1 : ℚ), (1 : ℚ)).1)] at hstep
    have hgt : 1 < (enhancer_step (1, 1, 1) e).1 := by
      rw [hstep]
      simpa using hpr.1
    have heq := enhancer_foldl_mult_eq rest (enhancer_step (1, 1, 1) e) hgt
      (fun n hn => hvalid n (List.mem_cons_of_mem e hn))
    unfold enhancer_fold
    rw [List.foldl_cons, heq, hstep]
    simp [hmult]

/-- Claim C8, witness: piperine applies its full 20-fold multiplier and
ghee the diminished factor. -/
theorem C8_diminishing_returns_witness :
    (enhancer_fold ["piperine", "ghee"]).1 =
      multOf ("piperine") * ((["ghee"].map fun n => 1 + (multOf n - 1) * 0.7)).prod :=
  C8_diminishing_returns_product ("piperine") ["ghee"] (by decide)

/-- Claim C9.  The source does not fail on unknown names: an unknown route
(`"topical"`, absent from the route table) silently falls back to the
oral-traditional parameters in `_calculate_base_admet`, and an unknown
enhancer name (`"turmeric"`, absent from the enhancer table) is silently
skipped by `_apply_enhancer_effects` — no `UnknownIdentifier` error is
raised anywhere. -/
theorem C9_unknown_names_silently_defaulted :
    preparation_routes ("topical") = none ∧
      route_params ("topical") = route_params ("oral_traditional") ∧
      traditional_enhancers ("turmeric") = none ∧
      apply_enhancer_effects demo_base ["turmeric"] = apply_enhancer_effects demo_base [] := by
  refine ⟨rfl, rfl, rfl, rfl⟩

/-- Claim C10.  Holding knowledge-type weight, community consensus and
cultural significance fixed, the compensation amount
(`1000 * (assessed_value * 10)`) is monotonically non-decreasing in the
contribution value over `[0, 1]`. -/
theorem C10_compensation_monotone (knowledge_type : String)
    (community_consensus significance v₁ v₂ : ℚ)
    (h0 : 0 ≤ v₁) (h12 : v₁ ≤ v₂) (h1 : v₂ ≤ 1) :
    compensation_amount
        (assess_contribution_value v₁ knowledge_type community_consensus significance) ≤
      compensation_amount
        (assess_contribution_value v₂ knowledge_type community_consensus significance) := by
  unfold compensation_amount assess_contribution_value
  have hmin : min (v₁ * 0.4 + knowledge_type_weights knowledge_type * 0.2 +
      community_consensus * 0.2 + significance * 0.2) 1 ≤
    min (v₂ * 0.4 + knowledge_type_weights knowledge_type * 0.2 +
      community_consensus * 0.2 + significance * 0.2) 1 :=
    min_le_min (by linarith) le_rfl
  linarith

/-- Claim C10, witness at a concrete contribution. -/
theorem C10_compensation_monotone_witness :
    compensation_amount (assess_contribution_value 0.3 ("chemical") 0.9 0.95) ≤
      compensation_amount (assess_contribution_value 0.9 ("chemical") 0.9 0.95) :=
  C10_compensation_monotone ("chemical") 0.9 0.95 0.3 0.9 (by norm_num) (by norm_num)
    (by norm_num)

end ChemPath
